import Mathlib

/-!
Verification development for the pushpop repository: a PostgreSQL-backed
message queue (client.go, message.go, sql.go).

The embedding models:
- a database row of the `pushpop_messages` table (`Row`),
- the database as the two table names the SQL statements mention
  (`pushpop_messages`, created by `Client.setup`, and `messages`, which
  `sqlFindMessage` reads from) — each either absent or a list of rows,
- the Go-level `Message` value, whose `c *Client` pointer is modelled as a
  `Bool` (`true` = bound to the client, `false` = nil pointer),
- the SQL statements of sql.go as pure functions on row lists, with wall
  time as an explicit `Int` parameter (seconds; `interval '5 minutes'` is
  300 seconds),
- the client and message methods of client.go / message.go on top of them.

Store failures that originate outside the data (connectivity, etc.) are
modelled by an explicit `Option GoError` oracle argument where the Go code
merely propagates the error of `Exec`.
-/

namespace Pushpop

/-- Message states, from message.go: READY = 0, PENDING = 1,
COMPLETED = 2, DISCARDED = 3 (a `uint16`, stored as `smallint`). -/
def State_READY : Nat := 0

/-- PENDING state ordinal, from message.go. -/
def State_PENDING : Nat := 1

/-- COMPLETED state ordinal, from message.go. -/
def State_COMPLETED : Nat := 2

/-- DISCARDED state ordinal, from message.go. -/
def State_DISCARDED : Nat := 3

/-- One row of the `pushpop_messages` table (sqlCreateMessages):
id uuid PRIMARY KEY, topic text, state smallint, state_time timestamptz,
payload text. Timestamps are seconds as `Int`; payload is a byte list. -/
structure Row where
  id : String
  topic : String
  state : Nat
  state_time : Int
  payload : List Nat
deriving Repr, DecidableEq

/-- The database, seen through the table names the SQL statements of sql.go
use: `pushpop_messages` (created by setup, used by push/pop/transition) and
`messages` (referenced by sqlFindMessage). `none` means the table does not
exist, so a statement against it fails with an undefined-table error. -/
structure Database where
  pushpop_messages : Option (List Row)
  messages : Option (List Row)
deriving Repr, DecidableEq

/-- The Go `Message` struct of message.go. The `c *Client` field is
modelled by `c : Bool`: `false` is a nil client pointer. -/
structure GoMessage where
  id : String
  topic : String
  state : Nat
  stateTime : Int
  payload : List Nat
  c : Bool
deriving Repr, DecidableEq

/-- Errors surfaced by the Go code: `errNoMessage` is `sql.ErrNoRows`
(aliased `ErrNoMessage` in client.go), `undefinedTable` is the PostgreSQL
42P01 error for a statement against a table that does not exist,
`uniqueViolation` is a primary-key conflict on INSERT, `connFailure` stands
for any other store failure, and `nilPointerPanic` is the Go runtime panic
raised by dereferencing a nil `*Client`. -/
inductive GoError where
  | errNoMessage
  | undefinedTable
  | uniqueViolation
  | connFailure
  | nilPointerPanic
deriving Repr, DecidableEq

/-- The fixed lease of sqlPopMessage: `interval '5 minutes'`, in seconds. -/
def leaseSeconds : Int := 300

/-- The `ORDER BY state_time ASC ... LIMIT 1` choice: the first row of the
list attaining the minimal `state_time` (PostgreSQL breaks ties
arbitrarily; the embedding fixes first-in-list order). -/
def pickMin : List Row → Option Row
  | [] => none
  | r :: rs =>
    match pickMin rs with
    | none => some r
    | some b => if r.state_time ≤ b.state_time then some r else some b

/-- The subselect of sqlPopMessage: among rows with the given topic and
state = 0 (READY), the one with smallest state_time. Note the statement
has no comparison of `state_time` against `now()`. -/
def popSelect (rows : List Row) (topic : String) : Option Row :=
  pickMin (rows.filter fun r => decide (r.topic = topic ∧ r.state = 0))

/-- The UPDATE of sqlPopMessage applied to the selected id: state = 1,
state_time = now() + interval 5 minutes. -/
def popUpdate (rows : List Row) (rid : String) (now : Int) : List Row :=
  rows.map fun x =>
    if x.id = rid then { x with state := 1, state_time := now + leaseSeconds } else x

/-- sqlTransitionMessage: UPDATE pushpop_messages SET state = $2,
state_time = $3 WHERE id = $1. Updates exactly the rows whose id matches;
matching zero rows is not an error. -/
def sqlTransitionRun (rows : List Row) (rid : String) (state : Nat) (t : Int) : List Row :=
  rows.map fun x => if x.id = rid then { x with state := state, state_time := t } else x

/-- sqlPushMessage: INSERT of a full row; `id` is the primary key, so a
duplicate identifier is a unique violation. -/
def sqlPushMessageRun (rows : List Row) (r : Row) : Except GoError (List Row) :=
  if rows.any (fun x => decide (x.id = r.id)) then Except.error GoError.uniqueViolation
  else Except.ok (rows ++ [r])

/-- Client.setup (client.go): checks information_schema for
`pushpop_messages` and creates the table (and its two partial indexes,
which carry no semantic content here) only when absent. It never creates
a table named `messages`. -/
def setup (db : Database) : Database :=
  match db.pushpop_messages with
  | some _ => db
  | none => { db with pushpop_messages := some [] }

/-- Client.NewMessage (client.go): a fresh `Message` with a new uuid
(passed in as `fresh`), the topic, the optional payload, bound to the
client (`c := true`). State and StateTime are Go zero values. -/
def NewMessage (topic : String) (fresh : String) (payload : Option (List Nat)) : GoMessage :=
  { id := fresh, topic := topic, state := 0, stateTime := 0
    payload := payload.getD [], c := true }

/-- Client.FindMessage (client.go): runs sqlFindMessage, which is
`SELECT id, topic, state, state_time, payload FROM messages WHERE id = $1`
— note the table name `messages`, not `pushpop_messages`. `Scan` on zero
rows yields sql.ErrNoRows (= ErrNoMessage). The scanned message never has
its `c` field set, so it is returned with a nil client pointer. -/
def FindMessage (db : Database) (rid : String) : Except GoError GoMessage :=
  match db.messages with
  | none => Except.error GoError.undefinedTable
  | some rows =>
    match rows.find? (fun r => decide (r.id = rid)) with
    | none => Except.error GoError.errNoMessage
    | some r =>
      Except.ok { id := r.id, topic := r.topic, state := r.state
                  stateTime := r.state_time, payload := r.payload, c := false }

/-- Client.Pop (client.go): one transaction running sqlPopMessage. If the
subselect finds no row, Scan reports sql.ErrNoRows (= ErrNoMessage) and the
deferred Rollback leaves the store unchanged. Otherwise the selected row is
updated to PENDING with a 5-minute lease, the transaction commits, and the
post-update row is returned bound to the client. Returns the new database
and the result. -/
def Pop (db : Database) (topic : String) (now : Int) : Database × Except GoError GoMessage :=
  match db.pushpop_messages with
  | none => (db, Except.error GoError.undefinedTable)
  | some rows =>
    match popSelect rows topic with
    | none => (db, Except.error GoError.errNoMessage)
    | some r =>
      ({ db with pushpop_messages := some (popUpdate rows r.id now) },
       Except.ok { id := r.id, topic := r.topic, state := 1
                   stateTime := now + leaseSeconds, payload := r.payload, c := true })

/-- Client.push (client.go): assigns `fresh` as id when the message has
none, binds the client when unbound, sets state = READY and
state_time = now + delay, then INSERTs via sqlPushMessage. The in-memory
mutations happen before the INSERT is attempted. Returns the mutated
message, the new database and the outcome. -/
def push (db : Database) (m : GoMessage) (delay : Int) (now : Int) (fresh : String) :
    GoMessage × Database × Option GoError :=
  let m1 := if m.id = "" then { m with id := fresh } else m
  let m2 := if m1.c = false then { m1 with c := true } else m1
  let m3 := { m2 with state := 0, stateTime := now + delay }
  match db.pushpop_messages with
  | none => (m3, db, some GoError.undefinedTable)
  | some rows =>
    match sqlPushMessageRun rows
        { id := m3.id, topic := m3.topic, state := m3.state
          state_time := m3.stateTime, payload := m3.payload } with
    | Except.error e => (m3, db, some e)
    | Except.ok rows1 => (m3, { db with pushpop_messages := some rows1 }, none)

/-- Message.transitionAfter (message.go): sets m.State and m.StateTime
first, then runs sqlTransitionMessage through `m.c.db`. A nil client
pointer (`c = false`) panics at the `m.c.db` dereference — after the field
mutations. `execErr` is the oracle for a store failure of `Exec`; on
failure the rows are untouched but the in-memory message already holds the
new values. -/
def transitionAfter (m : GoMessage) (state : Nat) (dur : Int) (now : Int)
    (execErr : Option GoError) (rows : List Row) :
    GoMessage × List Row × Option GoError :=
  let m1 := { m with state := state, stateTime := now + dur }
  if m1.c = false then (m1, rows, some GoError.nilPointerPanic)
  else
    match execErr with
    | some e => (m1, rows, some e)
    | none => (m1, sqlTransitionRun rows m1.id state (now + dur), none)

/-- Message.Complete: transitionAfter(State_COMPLETED, 0). -/
def Complete (m : GoMessage) (now : Int) (execErr : Option GoError) (rows : List Row) :
    GoMessage × List Row × Option GoError :=
  transitionAfter m State_COMPLETED 0 now execErr rows

/-- Message.Discard: transitionAfter(State_DISCARDED, 0). -/
def Discard (m : GoMessage) (now : Int) (execErr : Option GoError) (rows : List Row) :
    GoMessage × List Row × Option GoError :=
  transitionAfter m State_DISCARDED 0 now execErr rows

/-- Message.Defer: transitionAfter(State_READY, dur). -/
def Defer (m : GoMessage) (dur : Int) (now : Int) (execErr : Option GoError) (rows : List Row) :
    GoMessage × List Row × Option GoError :=
  transitionAfter m State_READY dur now execErr rows

/-- Message.Extend: transitionAfter(State_PENDING, dur). -/
def Extend (m : GoMessage) (dur : Int) (now : Int) (execErr : Option GoError) (rows : List Row) :
    GoMessage × List Row × Option GoError :=
  transitionAfter m State_PENDING dur now execErr rows

/-- Message.Push: `m.c.push(m, 0)` — dereferences the client pointer, so a
nil client panics; otherwise Client.push with delay 0. -/
def Push (db : Database) (m : GoMessage) (now : Int) (fresh : String) :
    GoMessage × Database × Option GoError :=
  if m.c = false then (m, db, some GoError.nilPointerPanic)
  else push db m 0 now fresh

/-! ### Basic lemmas about the SQL embedding -/

theorem pickMin_eq_none_iff (l : List Row) : pickMin l = none ↔ l = [] := by
  cases l with
  | nil => simp [pickMin]
  | cons r rs =>
    simp only [pickMin]
    cases h : pickMin rs with
    | none => simp
    | some b => by_cases hle : r.state_time ≤ b.state_time <;> simp [hle]

theorem pickMin_mem {l : List Row} :
    ∀ {r : Row}, pickMin l = some r → r ∈ l := by
  induction l with
  | nil => intro r h; simp [pickMin] at h
  | cons a rs ih =>
    intro r h
    simp only [pickMin] at h
    cases hm : pickMin rs with
    | none => rw [hm] at h; simp at h; simp [h]
    | some b =>
      rw [hm] at h
      by_cases hle : a.state_time ≤ b.state_time
      · simp [hle] at h; simp [h]
      · simp [hle] at h
        subst h
        exact List.mem_cons_of_mem a (ih hm)

theorem pickMin_le {l : List Row} :
    ∀ {r : Row}, pickMin l = some r → ∀ x ∈ l, r.state_time ≤ x.state_time := by
  induction l with
  | nil => intro r h; simp [pickMin] at h
  | cons a rs ih =>
    intro r h
    simp only [pickMin] at h
    cases hm : pickMin rs with
    | none =>
      rw [hm] at h
      simp at h
      subst h
      intro x hx
      rcases List.mem_cons.mp hx with h1 | h1
      · subst h1; exact le_refl _
      · exact absurd ((pickMin_eq_none_iff rs).mp hm ▸ h1) (List.not_mem_nil x)
    | some b =>
      rw [hm] at h
      by_cases hle : a.state_time ≤ b.state_time
      · simp [hle] at h
        subst h
        intro x hx
        rcases List.mem_cons.mp hx with h1 | h1
        · subst h1; exact le_refl _
        · exact le_trans hle (ih hm x h1)
      · simp [hle] at h
        subst h
        intro x hx
        rcases List.mem_cons.mp hx with h1 | h1
        · subst h1; exact le_of_lt (lt_of_not_le hle)
        · exact ih hm x h1

theorem popSelect_mem {rows : List Row} {t : String} {r : Row}
    (h : popSelect rows t = some r) : r ∈ rows ∧ r.topic = t ∧ r.state = 0 := by
  have hmem := pickMin_mem h
  rw [List.mem_filter] at hmem
  refine ⟨hmem.1, ?_⟩
  have := hmem.2
  simpa using this

theorem popSelect_min {rows : List Row} {t : String} {r : Row}
    (h : popSelect rows t = some r) :
    ∀ x ∈ rows, x.topic = t → x.state = 0 → r.state_time ≤ x.state_time := by
  intro x hx ht hs
  exact pickMin_le h x (List.mem_filter.mpr ⟨hx, by simp [ht, hs]⟩)

theorem popSelect_eq_none {rows : List Row} {t : String}
    (h : ∀ x ∈ rows, x.topic = t → x.state ≠ 0) : popSelect rows t = none := by
  rw [popSelect, pickMin_eq_none_iff, List.filter_eq_nil_iff]
  intro x hx
  simp only [decide_eq_true_eq, not_and]
  intro ht
  exact h x hx ht

/-! ### Claim theorems -/

/-- C2: the claim says a READY row whose state_time lies in the future is not
returned by Pop before that time elapses. The code violates it: sqlPopMessage
filters only on topic and state and never compares state_time with now(), so
a row pushed with delay (state_time = 1000, far beyond now = 0) is claimed
immediately. This contradicts the code's own documentation (message.go:
StateTime for READY is "The earliest time at which the message can be
popped"; PushDelay makes the message "available to be popped after the given
duration of time"). -/
theorem pop_ignores_ready_state_time :
    Pop { pushpop_messages :=
            some [{ id := "a", topic := "t", state := 0, state_time := 1000, payload := [] }],
          messages := none } "t" 0
      = ({ pushpop_messages :=
             some [{ id := "a", topic := "t", state := 1, state_time := 300, payload := [] }],
           messages := none },
         Except.ok { id := "a", topic := "t", state := 1, stateTime := 300
                     payload := [], c := true }) := by
  rfl

/-- C3: the claim says FindMessage returns the persisted message for an
existing id and the not-found error otherwise. The code violates it:
sqlFindMessage reads FROM `messages`, a table Client.setup never creates
(it creates `pushpop_messages`), so even a lookup of a message that was just
successfully pushed fails with an undefined-table store error rather than
returning the message. -/
theorem findMessage_queries_missing_table :
    (push (setup { pushpop_messages := none, messages := none })
        { id := "m1", topic := "t", state := 0, stateTime := 0, payload := [1], c := true }
        0 0 "f").2.2 = none
    ∧ FindMessage
        (push (setup { pushpop_messages := none, messages := none })
          { id := "m1", topic := "t", state := 0, stateTime := 0, payload := [1], c := true }
          0 0 "f").2.1 "m1"
      = Except.error GoError.undefinedTable := by
  constructor <;> rfl

/-- C4 counterexample: the claim says a failed store update leaves the
in-memory message's state and state_time unchanged. At the concrete message
(state = PENDING = 1, stateTime = 50) a Complete whose Exec fails
(connFailure) leaves the in-memory message with state = 2 and
stateTime = 100: both fields changed even though the store was not
updated. -/
theorem transition_mutates_before_store_refutation :
    (transitionAfter
        { id := "m", topic := "t", state := 1, stateTime := 50, payload := [], c := true }
        2 0 100 (some GoError.connFailure) []).1.state = 2
    ∧ (transitionAfter
        { id := "m", topic := "t", state := 1, stateTime := 50, payload := [], c := true }
        2 0 100 (some GoError.connFailure) []).1.stateTime = 100
    ∧ (transitionAfter
        { id := "m", topic := "t", state := 1, stateTime := 50, payload := [], c := true }
        2 0 100 (some GoError.connFailure) []).2.2 = some GoError.connFailure
    ∧ ({ id := "m", topic := "t", state := 1, stateTime := 50, payload := [], c := true }
        : GoMessage).state ≠ 2 := by
  refine ⟨rfl, rfl, rfl, by decide⟩

/-- C4 amended: transitionAfter assigns the target state and state_time to
the in-memory message before the store update is attempted, so when the
store update fails the store rows are unchanged but the in-memory message
already holds the new values (not the last-known-good ones). -/
theorem transition_failure_leaves_new_values (m : GoMessage) (st : Nat) (dur now : Int)
    (e : GoError) (rows : List Row) (hc : m.c = true) :
    transitionAfter m st dur now (some e) rows
      = ({ m with state := st, stateTime := now + dur }, rows, some e) := by
  simp [transitionAfter, hc]

/-- Witness for the amended C4 theorem at a concrete input. -/
theorem transition_failure_leaves_new_values_witness :
    transitionAfter
        { id := "m", topic := "t", state := 1, stateTime := 50, payload := [], c := true }
        2 0 100 (some GoError.connFailure) []
      = ({ id := "m", topic := "t", state := 2, stateTime := 100, payload := [], c := true },
         [], some GoError.connFailure) :=
  transition_failure_leaves_new_values _ 2 0 100 GoError.connFailure [] rfl

/-- C6: Complete sets state = COMPLETED with state_time = now, Discard sets
state = DISCARDED with state_time = now, Defer(d) sets state = READY with
state_time = now + d, Extend(d) sets state = PENDING with state_time =
now + d; each runs sqlTransitionMessage, which updates exactly the rows
whose id matches (characterized position by position), succeeds regardless
of whether such a row exists, and inspects neither ownership nor prior
state. -/
theorem transitions_single_row_update (m : GoMessage) (d now : Int) (rows : List Row)
    (hc : m.c = true) :
    Complete m now none rows
      = ({ m with state := State_COMPLETED, stateTime := now },
         sqlTransitionRun rows m.id State_COMPLETED now, none)
    ∧ Discard m now none rows
      = ({ m with state := State_DISCARDED, stateTime := now },
         sqlTransitionRun rows m.id State_DISCARDED now, none)
    ∧ Defer m d now none rows
      = ({ m with state := State_READY, stateTime := now + d },
         sqlTransitionRun rows m.id State_READY (now + d), none)
    ∧ Extend m d now none rows
      = ({ m with state := State_PENDING, stateTime := now + d },
         sqlTransitionRun rows m.id State_PENDING (now + d), none)
    ∧ (∀ (st : Nat) (t : Int) (i : Nat), (sqlTransitionRun rows m.id st t)[i]?
        = (rows[i]?).map fun x =>
            if x.id = m.id then { x with state := st, state_time := t } else x)
    ∧ (∀ (st : Nat) (t : Int), (∀ x ∈ rows, x.id ≠ m.id)
        → sqlTransitionRun rows m.id st t = rows) := by
  refine ⟨?_, ?_, ?_, ?_, ?_, ?_⟩
  · simp [Complete, transitionAfter, hc, State_COMPLETED]
  · simp [Discard, transitionAfter, hc, State_DISCARDED]
  · simp [Defer, transitionAfter, hc, State_READY]
  · simp [Extend, transitionAfter, hc, State_PENDING]
  · intro st t i
    simp [sqlTransitionRun]
  · intro st t h
    rw [sqlTransitionRun]
    conv_rhs => rw [← List.map_id rows]
    apply List.map_congr_left
    intro x hx
    simp [h x hx]

/-- Witness for the C6 theorem at a concrete input. -/
theorem transitions_single_row_update_witness :
    Complete { id := "m", topic := "t", state := 1, stateTime := 5, payload := [], c := true }
        9 none [{ id := "m", topic := "t", state := 1, state_time := 5, payload := [] }]
      = ({ id := "m", topic := "t", state := 2, stateTime := 9, payload := [], c := true },
         [{ id := "m", topic := "t", state := 2, state_time := 9, payload := [] }], none) := by
  have h := transitions_single_row_update
    { id := "m", topic := "t", state := 1, stateTime := 5, payload := [], c := true }
    0 9 [{ id := "m", topic := "t", state := 1, state_time := 5, payload := [] }] rfl
  exact h.1

theorem map_id_of_eq {α : Type} (l : List α) (f : α → α) (h : ∀ x ∈ l, f x = x) :
    l.map f = l := by
  induction l with
  | nil => rfl
  | cons a as ih =>
    rw [List.map_cons, h a (List.mem_cons_self a as),
      ih (fun x hx => h x (List.mem_cons_of_mem a hx))]

theorem popUpdate_decomp (l1 l2 : List Row) (r : Row) (now : Int)
    (h1 : ∀ x ∈ l1, x.id ≠ r.id) (h2 : ∀ x ∈ l2, x.id ≠ r.id) :
    popUpdate (l1 ++ r :: l2) r.id now
      = l1 ++ { r with state := 1, state_time := now + leaseSeconds } :: l2 := by
  rw [popUpdate, List.map_append, List.map_cons]
  rw [map_id_of_eq l1 _ (fun x hx => by simp [h1 x hx])]
  rw [map_id_of_eq l2 _ (fun x hx => by simp [h2 x hx])]
  simp

/-- Rows of the updated list that are READY come unchanged from the original
list: the pop update only ever sets state to 1 (PENDING). -/
theorem popUpdate_ready_mem {rows : List Row} {rid : String} {n : Int} {x : Row}
    (hmem : x ∈ popUpdate rows rid n) (hx : x.state = 0) : x ∈ rows := by
  rw [popUpdate, List.mem_map] at hmem
  obtain ⟨y, hy, hfy⟩ := hmem
  by_cases hid : y.id = rid
  · rw [if_pos hid] at hfy
    rw [← hfy] at hx
    exact absurd hx (by simp)
  · rw [if_neg hid] at hfy
    exact hfy ▸ hy

/-- C7 counterexample: the claim says a topic with no *eligible* READY row
(state_time in the future counts as not eligible) yields NoMessageError and
no store mutation. At the concrete store whose only row is READY with
state_time = 7 and now = 0 (so nothing is eligible), Pop nevertheless
returns the row and mutates the store, because sqlPopMessage never compares
state_time with now(). -/
theorem pop_future_row_not_error :
    ({ id := "a", topic := "t", state := 0, state_time := 7, payload := [] } : Row).state = 0
    ∧ ¬(({ id := "a", topic := "t", state := 0, state_time := 7, payload := [] } : Row).state_time ≤ 0)
    ∧ (Pop { pushpop_messages :=
               some [{ id := "a", topic := "t", state := 0, state_time := 7, payload := [] }],
             messages := none } "t" 0).2
        = Except.ok { id := "a", topic := "t", state := 1, stateTime := 300
                      payload := [], c := true }
    ∧ (Pop { pushpop_messages :=
               some [{ id := "a", topic := "t", state := 0, state_time := 7, payload := [] }],
             messages := none } "t" 0).1
        ≠ { pushpop_messages :=
              some [{ id := "a", topic := "t", state := 0, state_time := 7, payload := [] }],
            messages := none } := by
  refine ⟨rfl, by decide, rfl, by decide⟩

/-- C7 amended: for every topic with no READY row at all (rather than "no
eligible READY row" — sqlPopMessage ignores state_time, see the
counterexample), Pop returns ErrNoMessage and leaves the database unchanged
(the transaction is rolled back), and repeating the call gives the same
outcome with no side effects. -/
theorem pop_empty_topic_idempotent (db : Database) (rows : List Row) (t : String) (now : Int)
    (hdb : db.pushpop_messages = some rows)
    (hempty : ∀ r ∈ rows, r.topic = t → r.state ≠ 0) :
    Pop db t now = (db, Except.error GoError.errNoMessage)
    ∧ ∀ now2 : Int, Pop (Pop db t now).1 t now2 = (db, Except.error GoError.errNoMessage) := by
  have hsel := popSelect_eq_none hempty
  have h1 : Pop db t now = (db, Except.error GoError.errNoMessage) := by
    simp [Pop, hdb, hsel]
  refine ⟨h1, fun now2 => ?_⟩
  rw [h1]
  simp [Pop, hdb, hsel]

/-- Witness for the amended C7 theorem at a concrete input. -/
theorem pop_empty_topic_idempotent_witness :
    Pop { pushpop_messages :=
            some [{ id := "b", topic := "other", state := 0, state_time := 0, payload := [] }],
          messages := none } "t" 5
      = ({ pushpop_messages :=
             some [{ id := "b", topic := "other", state := 0, state_time := 0, payload := [] }],
           messages := none },
         Except.error GoError.errNoMessage) :=
  (pop_empty_topic_idempotent _ _ "t" 5 rfl (by decide)).1

/-- Helper characterizing a successful Client.push: the message gets the
fresh id exactly when it had none, state = READY, state_time = now + delay,
a single new row with the message's values is appended, and no other table
is touched. -/
theorem push_eq_of_fresh (db : Database) (m : GoMessage) (delay now : Int)
    (fresh : String) (rows : List Row)
    (hdb : db.pushpop_messages = some rows)
    (hfresh : ∀ r ∈ rows, r.id ≠ (if m.id = "" then fresh else m.id)) :
    push db m delay now fresh
      = ({ id := if m.id = "" then fresh else m.id, topic := m.topic, state := State_READY
           stateTime := now + delay, payload := m.payload, c := true },
         { pushpop_messages :=
             some (rows ++ [{ id := if m.id = "" then fresh else m.id, topic := m.topic
                              state := State_READY, state_time := now + delay
                              payload := m.payload }])
           messages := db.messages },
         none) := by
  by_cases hid : m.id = ""
  · have hne : ¬ ∃ x ∈ rows, x.id = fresh := by
      rintro ⟨x, hx, he⟩
      exact hfresh x hx (by rw [if_pos hid]; exact he)
    cases hc : m.c <;> simp [push, hdb, sqlPushMessageRun, hid, hc, hne, State_READY]
  · have hne : ¬ ∃ x ∈ rows, x.id = m.id := by
      rintro ⟨x, hx, he⟩
      exact hfresh x hx (by rw [if_neg hid]; exact he)
    cases hc : m.c <;> simp [push, hdb, sqlPushMessageRun, hid, hc, hne, State_READY]

/-- C8: push assigns the fresh identifier exactly when the message has none
and keeps an existing one, sets state = READY and state_time = now + delay,
inserts a single new row carrying those values together with the topic and
payload, leaves every other table untouched, succeeds, and leaves the
in-memory message's fields equal to the persisted row's fields. -/
theorem push_assigns_and_persists (db : Database) (m : GoMessage) (delay now : Int)
    (fresh : String) (rows : List Row)
    (hdb : db.pushpop_messages = some rows)
    (hfresh : ∀ r ∈ rows, r.id ≠ (if m.id = "" then fresh else m.id)) :
    push db m delay now fresh
      = ({ id := if m.id = "" then fresh else m.id, topic := m.topic, state := State_READY
           stateTime := now + delay, payload := m.payload, c := true },
         { pushpop_messages :=
             some (rows ++ [{ id := if m.id = "" then fresh else m.id, topic := m.topic
                              state := State_READY, state_time := now + delay
                              payload := m.payload }])
           messages := db.messages },
         none) :=
  push_eq_of_fresh db m delay now fresh rows hdb hfresh

/-- Witness for the C8 theorem at a concrete input (a message with no id
yet, one unrelated row already stored). -/
theorem push_assigns_and_persists_witness :
    push { pushpop_messages :=
             some [{ id := "x", topic := "t", state := 2, state_time := 1, payload := [] }],
           messages := none }
        { id := "", topic := "t", state := 0, stateTime := 0, payload := [9], c := false }
        4 10 "f"
      = ({ id := "f", topic := "t", state := 0, stateTime := 14, payload := [9], c := true },
         { pushpop_messages :=
             some [{ id := "x", topic := "t", state := 2, state_time := 1, payload := [] },
                   { id := "f", topic := "t", state := 0, state_time := 14, payload := [9] }],
           messages := none },
         none) := by
  have h := push_assigns_and_persists
    { pushpop_messages :=
        some [{ id := "x", topic := "t", state := 2, state_time := 1, payload := [] }],
      messages := none }
    { id := "", topic := "t", state := 0, stateTime := 0, payload := [9], c := false }
    4 10 "f"
    [{ id := "x", topic := "t", state := 2, state_time := 1, payload := [] }]
    rfl (by decide)
  simpa using h

/-- C10: a message returned by FindMessage carries no client binding
(`c = false`, the nil pointer): FindMessage scans the row into a fresh
`Message{}` and never sets `c`. Consequently each of Complete, Discard,
Defer, Extend panics on the nil `*Client` dereference without reaching the
store (the row list is untouched), and Push panics likewise without
touching the database; whereas NewMessage, push and Pop all hand out
messages bound to the client. -/
theorem findMessage_unbound_client (db : Database) (rid : String) (msg : GoMessage)
    (h : FindMessage db rid = Except.ok msg) :
    msg.c = false
    ∧ (∀ (now : Int) (e : Option GoError) (rows : List Row),
        (Complete msg now e rows).2 = (rows, some GoError.nilPointerPanic)
        ∧ (Discard msg now e rows).2 = (rows, some GoError.nilPointerPanic))
    ∧ (∀ (d now : Int) (e : Option GoError) (rows : List Row),
        (Defer msg d now e rows).2 = (rows, some GoError.nilPointerPanic)
        ∧ (Extend msg d now e rows).2 = (rows, some GoError.nilPointerPanic))
    ∧ (∀ (db2 : Database) (now : Int) (fresh : String),
        Push db2 msg now fresh = (msg, db2, some GoError.nilPointerPanic))
    ∧ (∀ (t fresh : String) (p : Option (List Nat)), (NewMessage t fresh p).c = true)
    ∧ (∀ (db2 : Database) (m : GoMessage) (delay now : Int) (fresh : String),
        ((push db2 m delay now fresh).1).c = true)
    ∧ (∀ (db2 : Database) (t : String) (now : Int) (msg2 : GoMessage),
        (Pop db2 t now).2 = Except.ok msg2 → msg2.c = true) := by
  have hc : msg.c = false := by
    cases hm : db.messages with
    | none => simp [FindMessage, hm] at h
    | some rows =>
      cases hf : rows.find? (fun r => decide (r.id = rid)) with
      | none => simp [FindMessage, hm, hf] at h
      | some r =>
        simp only [FindMessage, hm, hf, Except.ok.injEq] at h
        subst h
        rfl
  refine ⟨hc, ?_, ?_, ?_, ?_, ?_, ?_⟩
  · intro now e rows
    constructor <;> simp [Complete, Discard, transitionAfter, hc]
  · intro d now e rows
    constructor <;> simp [Defer, Extend, transitionAfter, hc]
  · intro db2 now fresh
    simp [Push, hc]
  · intro t fresh p
    rfl
  · intro db2 m delay now fresh
    by_cases hid : m.id = "" <;> cases hcm : m.c <;>
      cases hdb2 : db2.pushpop_messages <;>
      simp [push, hid, hcm, hdb2, sqlPushMessageRun] <;>
      split <;> simp
  · intro db2 t now msg2 hpop
    cases hdb2 : db2.pushpop_messages with
    | none => simp [Pop, hdb2] at hpop
    | some rows =>
      cases hsel : popSelect rows t with
      | none => simp [Pop, hdb2, hsel] at hpop
      | some r =>
        simp only [Pop, hdb2, hsel, Except.ok.injEq] at hpop
        subst hpop
        rfl

/-- Witness for the C10 theorem: a database that happens to contain a table
named `messages` (setup never creates one, but the PostgreSQL database may
hold other tables) makes FindMessage return a row, and that message is
unbound. -/
theorem findMessage_unbound_client_witness :
    FindMessage { pushpop_messages := none
                  messages := some [{ id := "a", topic := "t", state := 1, state_time := 5
                                      payload := [7] }] } "a"
      = Except.ok { id := "a", topic := "t", state := 1, stateTime := 5, payload := [7], c := false }
    ∧ ({ id := "a", topic := "t", state := 1, stateTime := 5, payload := [7], c := false }
        : GoMessage).c = false :=
  ⟨rfl,
   (findMessage_unbound_client
      { pushpop_messages := none
        messages := some [{ id := "a", topic := "t", state := 1, state_time := 5, payload := [7] }] }
      "a" _ rfl).1⟩

/-- C5: when the topic has at least one eligible READY row (state = 0 and
state_time ≤ now), Pop selects a row of that topic with state = READY and
smallest state_time among the topic's READY rows, rewrites exactly that row
to state = PENDING with state_time = now + the fixed 5-minute lease, and
returns the post-update row; moreover, for successive claims, the row
selected by the next pop has state_time no smaller than the previously
selected one. Row identifiers are assumed pairwise distinct (`id` is the
table's primary key). -/
theorem pop_selects_min_ready (db : Database) (rows : List Row) (t : String) (now : Int)
    (hdb : db.pushpop_messages = some rows)
    (hnodup : (rows.map Row.id).Nodup)
    (helig : ∃ r ∈ rows, r.topic = t ∧ r.state = 0 ∧ r.state_time ≤ now) :
    (∃ r l1 l2, rows = l1 ++ r :: l2
      ∧ r.topic = t ∧ r.state = State_READY
      ∧ (∀ x ∈ rows, x.topic = t → x.state = 0 → r.state_time ≤ x.state_time)
      ∧ Pop db t now
          = ({ pushpop_messages :=
                 some (l1 ++ { r with state := State_PENDING,
                                      state_time := now + leaseSeconds } :: l2)
               messages := db.messages },
             Except.ok { id := r.id, topic := r.topic, state := State_PENDING
                         stateTime := now + leaseSeconds, payload := r.payload, c := true }))
    ∧ (∀ (rs : List Row) (r1 r2 : Row) (n1 : Int),
        popSelect rs t = some r1 → popSelect (popUpdate rs r1.id n1) t = some r2 →
        r1.state_time ≤ r2.state_time) := by
  constructor
  · obtain ⟨r0, hr0mem, hr0t, hr0s, _⟩ := helig
    cases hsel : popSelect rows t with
    | none =>
      exfalso
      rw [popSelect, pickMin_eq_none_iff] at hsel
      have hmem0 : r0 ∈ rows.filter fun r => decide (r.topic = t ∧ r.state = 0) :=
        List.mem_filter.mpr ⟨hr0mem, by simp [hr0t, hr0s]⟩
      rw [hsel] at hmem0
      exact absurd hmem0 (List.not_mem_nil _)
    | some r =>
      obtain ⟨hmem, ht, hs⟩ := popSelect_mem hsel
      obtain ⟨l1, l2, hdecomp⟩ := List.append_of_mem hmem
      have hnd := hnodup
      rw [hdecomp, List.map_append, List.map_cons, List.nodup_append] at hnd
      obtain ⟨_, h2n, hdisj⟩ := hnd
      have hl2 : r.id ∉ l2.map Row.id := (List.nodup_cons.mp h2n).1
      have hl1 : r.id ∉ l1.map Row.id :=
        fun hin => hdisj hin (List.mem_cons_self _ _)
      have hf1 : ∀ x ∈ l1, x.id ≠ r.id :=
        fun x hx he => hl1 (he ▸ List.mem_map_of_mem Row.id hx)
      have hf2 : ∀ x ∈ l2, x.id ≠ r.id :=
        fun x hx he => hl2 (he ▸ List.mem_map_of_mem Row.id hx)
      have hupd : popUpdate rows r.id now
          = l1 ++ { r with state := 1, state_time := now + leaseSeconds } :: l2 := by
        rw [hdecomp]
        exact popUpdate_decomp l1 l2 r now hf1 hf2
      refine ⟨r, l1, l2, hdecomp, ht, hs, popSelect_min hsel, ?_⟩
      simp [Pop, hdb, hsel, hupd, State_PENDING]
  · intro rs r1 r2 n1 h1 h2
    obtain ⟨hmem2, ht2, hs2⟩ := popSelect_mem h2
    have hmem2' : r2 ∈ rs := popUpdate_ready_mem hmem2 hs2
    exact popSelect_min h1 r2 hmem2' ht2 hs2

/-- Witness for the C5 theorem at a concrete input: two READY rows, the
earlier one eligible. -/
theorem pop_selects_min_ready_witness :
    (∃ r ∈ [({ id := "a", topic := "t", state := 0, state_time := 3, payload := [5] } : Row),
            { id := "b", topic := "t", state := 0, state_time := 9, payload := [6] }],
        r.topic = "t" ∧ r.state = 0 ∧ r.state_time ≤ 10)
    ∧ ∃ r l1 l2,
        [({ id := "a", topic := "t", state := 0, state_time := 3, payload := [5] } : Row),
         { id := "b", topic := "t", state := 0, state_time := 9, payload := [6] }] = l1 ++ r :: l2
        ∧ r.topic = "t" ∧ r.state = State_READY
        ∧ (∀ x ∈ [({ id := "a", topic := "t", state := 0, state_time := 3, payload := [5] } : Row),
                  { id := "b", topic := "t", state := 0, state_time := 9, payload := [6] }],
            x.topic = "t" → x.state = 0 → r.state_time ≤ x.state_time)
        ∧ Pop { pushpop_messages :=
                  some [{ id := "a", topic := "t", state := 0, state_time := 3, payload := [5] },
                        { id := "b", topic := "t", state := 0, state_time := 9, payload := [6] }],
                messages := none } "t" 10
            = ({ pushpop_messages :=
                   some (l1 ++ { r with state := State_PENDING,
                                        state_time := 10 + leaseSeconds } :: l2)
                 messages := none },
               Except.ok { id := r.id, topic := r.topic, state := State_PENDING
                           stateTime := 10 + leaseSeconds, payload := r.payload, c := true }) :=
  ⟨⟨{ id := "a", topic := "t", state := 0, state_time := 3, payload := [5] },
    by simp, by simp⟩,
   (pop_selects_min_ready
      { pushpop_messages :=
          some [{ id := "a", topic := "t", state := 0, state_time := 3, payload := [5] },
                { id := "b", topic := "t", state := 0, state_time := 9, payload := [6] }],
        messages := none }
      [{ id := "a", topic := "t", state := 0, state_time := 3, payload := [5] },
       { id := "b", topic := "t", state := 0, state_time := 9, payload := [6] }]
      "t" 10 rfl (by decide)
      ⟨{ id := "a", topic := "t", state := 0, state_time := 3, payload := [5] },
        by simp, by simp⟩).1⟩

/-- C9: a message pushed with no delay to a topic none of whose other READY
rows are eligible (their state_time is strictly in the future), with a fresh
or absent identifier, is returned by the next Pop on that topic with the
same identifier and payload as the pushed message. -/
theorem push_pop_round_trip (db db2 : Database) (m m2 : GoMessage)
    (now now2 : Int) (fresh : String) (rows : List Row)
    (hdb : db.pushpop_messages = some rows)
    (hother : ∀ r ∈ rows, r.topic = m.topic → r.state = 0 → now < r.state_time)
    (hpush : push db m 0 now fresh = (m2, db2, none)) :
    ∃ msg, (Pop db2 m.topic now2).2 = Except.ok msg
      ∧ msg.id = m2.id ∧ msg.payload = m2.payload ∧ msg.payload = m.payload := by
  have hfresh : ∀ r ∈ rows, r.id ≠ (if m.id = "" then fresh else m.id) := by
    intro r hr he
    by_cases hid : m.id = ""
    · rw [if_pos hid] at he
      have hne : ∃ x ∈ rows, x.id = fresh := ⟨r, hr, he⟩
      cases hcm : m.c <;>
        simp [push, hdb, sqlPushMessageRun, hid, hcm, hne] at hpush
    · rw [if_neg hid] at he
      have hne : ∃ x ∈ rows, x.id = m.id := ⟨r, hr, he⟩
      cases hcm : m.c <;>
        simp [push, hdb, sqlPushMessageRun, hid, hcm, hne] at hpush
  rw [push_eq_of_fresh db m 0 now fresh rows hdb hfresh] at hpush
  simp only [Prod.mk.injEq, and_true] at hpush
  obtain ⟨hm2, hdb2⟩ := hpush
  simp only [add_zero] at hm2 hdb2
  have hsel : popSelect
      (rows ++ [{ id := if m.id = "" then fresh else m.id, topic := m.topic,
                  state := State_READY, state_time := now, payload := m.payload }])
      m.topic
      = some { id := if m.id = "" then fresh else m.id, topic := m.topic,
               state := State_READY, state_time := now, payload := m.payload } := by
    cases hs : popSelect
        (rows ++ [{ id := if m.id = "" then fresh else m.id, topic := m.topic,
                    state := State_READY, state_time := now, payload := m.payload }])
        m.topic with
    | none =>
      exfalso
      rw [popSelect, pickMin_eq_none_iff, List.filter_eq_nil_iff] at hs
      exact hs { id := if m.id = "" then fresh else m.id, topic := m.topic,
                 state := State_READY, state_time := now, payload := m.payload }
        (List.mem_append_right rows (List.mem_singleton_self _))
        (by simp [State_READY])
    | some r2 =>
      obtain ⟨hmem, ht2, hs2⟩ := popSelect_mem hs
      rcases List.mem_append.mp hmem with hin | hin
      · exfalso
        have hgt := hother r2 hin ht2 hs2
        have hle : r2.state_time ≤ now :=
          popSelect_min hs
            { id := if m.id = "" then fresh else m.id, topic := m.topic,
              state := State_READY, state_time := now, payload := m.payload }
            (List.mem_append_right rows (List.mem_singleton_self _)) rfl rfl
        omega
      · rw [List.mem_singleton] at hin
        rw [hin]
  rw [← hm2, ← hdb2]
  refine ⟨{ id := if m.id = "" then fresh else m.id, topic := m.topic, state := 1,
            stateTime := now2 + leaseSeconds, payload := m.payload, c := true },
    by simp [Pop, hsel], by simp [State_READY], by simp, by simp⟩

/-- Witness for the C9 theorem at a concrete input: one ineligible READY
row already stored, a fresh message pushed and popped back. -/
theorem push_pop_round_trip_witness :
    (push { pushpop_messages :=
              some [{ id := "z", topic := "t", state := 0, state_time := 50, payload := [] }],
            messages := none }
        { id := "q", topic := "t", state := 0, stateTime := 0, payload := [3], c := true }
        0 7 "f").2.2 = none
    ∧ ∃ msg,
        (Pop (push { pushpop_messages :=
                       some [{ id := "z", topic := "t", state := 0, state_time := 50
                               payload := [] }],
                     messages := none }
              { id := "q", topic := "t", state := 0, stateTime := 0, payload := [3], c := true }
              0 7 "f").2.1 "t" 8).2 = Except.ok msg
        ∧ msg.id = (push { pushpop_messages :=
                             some [{ id := "z", topic := "t", state := 0, state_time := 50
                                     payload := [] }],
                           messages := none }
                      { id := "q", topic := "t", state := 0, stateTime := 0
                        payload := [3], c := true }
                      0 7 "f").1.id
        ∧ msg.payload = [3] := by
  refine ⟨rfl, ?_⟩
  obtain ⟨msg, h1, h2, h3, h4⟩ := push_pop_round_trip
    { pushpop_messages :=
        some [{ id := "z", topic := "t", state := 0, state_time := 50, payload := [] }],
      messages := none }
    { pushpop_messages :=
        some [{ id := "z", topic := "t", state := 0, state_time := 50, payload := [] },
              { id := "q", topic := "t", state := 0, state_time := 7, payload := [3] }],
      messages := none }
    { id := "q", topic := "t", state := 0, stateTime := 0, payload := [3], c := true }
    { id := "q", topic := "t", state := 0, stateTime := 7, payload := [3], c := true }
    7 8 "f"
    [{ id := "z", topic := "t", state := 0, state_time := 50, payload := [] }]
    rfl (by decide) (by rfl)
  exact ⟨msg, h1, h2, h4⟩

/-! ### Concurrency model of the claim protocol

Client.Pop runs sqlPopMessage inside one transaction: the subselect takes a
FOR UPDATE row lock on the chosen row, the UPDATE rewrites it, and Commit
publishes the update and releases the lock. The model below makes the
PostgreSQL mechanics explicit for an arbitrary number of concurrent Pop
transactions against one shared table:

- each process is a program counter (`ProcState`) of one Pop call;
- the subselect reads the committed rows and picks the minimal READY row of
  its topic (`popSelect`); if that row's lock is free the process acquires
  it, otherwise it blocks on that row (FOR UPDATE queues behind the holder);
- a blocked process resumes only once the lock is free and then re-checks
  the WHERE condition on that single row (READ COMMITTED re-evaluation;
  because of LIMIT 1 the statement does not move on to another row), giving
  up with no message if the row is no longer READY;
- update and commit are one atomic step (`popUpdate` on the committed rows)
  because the update becomes visible to other transactions exactly at
  commit, which also releases the lock.
-/

/-- Program counter of one in-flight Pop transaction. `now` is the
transaction's now() (fixed at transaction start). -/
inductive ProcState where
  | start (topic : String) (now : Int)
  | locked (rid : String) (now : Int)
  | blocked (rid : String) (now : Int)
  | noMsg
  | got (r : Row)
deriving Repr, DecidableEq

/-- Global state of the concurrency model: the committed rows of
pushpop_messages and one ProcState per client process. -/
structure Sys where
  rows : List Row
  procs : List ProcState
deriving Repr, DecidableEq

/-- Whether a process state holds the FOR UPDATE lock on row `rid`. -/
def holdsLock (p : ProcState) (rid : String) : Bool :=
  match p with
  | ProcState.locked r _ => decide (r = rid)
  | _ => false

/-- No process holds the FOR UPDATE lock on row `rid`. -/
def lockFree (s : Sys) (rid : String) : Bool :=
  s.procs.all fun p => !(holdsLock p rid)

/-- One atomic step of the interleaved system (see the section comment for
the correspondence with the PostgreSQL mechanics of sqlPopMessage). -/
inductive Step : Sys → Sys → Prop where
  | selectNone (s : Sys) (p : Nat) (t : String) (now : Int) :
      s.procs[p]? = some (ProcState.start t now) →
      popSelect s.rows t = none →
      Step s { s with procs := s.procs.set p ProcState.noMsg }
  | selectLock (s : Sys) (p : Nat) (t : String) (now : Int) (r : Row) :
      s.procs[p]? = some (ProcState.start t now) →
      popSelect s.rows t = some r →
      lockFree s r.id = true →
      Step s { s with procs := s.procs.set p (ProcState.locked r.id now) }
  | selectBlock (s : Sys) (p : Nat) (t : String) (now : Int) (r : Row) :
      s.procs[p]? = some (ProcState.start t now) →
      popSelect s.rows t = some r →
      lockFree s r.id = false →
      Step s { s with procs := s.procs.set p (ProcState.blocked r.id now) }
  | wakeLock (s : Sys) (p : Nat) (rid : String) (now : Int) (r : Row) :
      s.procs[p]? = some (ProcState.blocked rid now) →
      lockFree s rid = true →
      s.rows.find? (fun x => decide (x.id = rid)) = some r →
      r.state = 0 →
      Step s { s with procs := s.procs.set p (ProcState.locked rid now) }
  | wakeFail (s : Sys) (p : Nat) (rid : String) (now : Int) (r : Row) :
      s.procs[p]? = some (ProcState.blocked rid now) →
      lockFree s rid = true →
      s.rows.find? (fun x => decide (x.id = rid)) = some r →
      r.state ≠ 0 →
      Step s { s with procs := s.procs.set p ProcState.noMsg }
  | commit (s : Sys) (p : Nat) (rid : String) (now : Int) (r : Row) :
      s.procs[p]? = some (ProcState.locked rid now) →
      s.rows.find? (fun x => decide (x.id = rid)) = some r →
      Step s { rows := popUpdate s.rows rid now,
               procs := s.procs.set p
                 (ProcState.got { r with state := 1, state_time := now + leaseSeconds }) }

/-- A starting configuration: pairwise-distinct row ids (id is the primary
key) and every process yet to run its Pop transaction. The rows themselves
are arbitrary (any mix of READY, PENDING and terminal rows, any topics). -/
def InitOk (s : Sys) : Prop :=
  (s.rows.map Row.id).Nodup ∧ ∀ q ∈ s.procs, ∃ t now, q = ProcState.start t now

/-- The inductive invariant of the model: ids stay distinct; a held lock
covers a READY row; locks are exclusive; a finished `got r` corresponds to a
stored row with the same id that is no longer READY; and distinct finished
processes returned rows with distinct ids. -/
structure Inv (s : Sys) : Prop where
  nodup : (s.rows.map Row.id).Nodup
  locked_ready : ∀ (p : Nat) (rid : String) (now : Int),
    s.procs[p]? = some (ProcState.locked rid now) →
    ∃ x ∈ s.rows, x.id = rid ∧ x.state = 0
  locked_excl : ∀ (p q : Nat) (rid rid2 : String) (now now2 : Int), p ≠ q →
    s.procs[p]? = some (ProcState.locked rid now) →
    s.procs[q]? = some (ProcState.locked rid2 now2) → rid ≠ rid2
  got_done : ∀ (p : Nat) (r : Row), s.procs[p]? = some (ProcState.got r) →
    ∃ x ∈ s.rows, x.id = r.id ∧ x.state ≠ 0
  got_excl : ∀ (p q : Nat) (r r2 : Row), p ≠ q →
    s.procs[p]? = some (ProcState.got r) →
    s.procs[q]? = some (ProcState.got r2) → r.id ≠ r2.id

theorem getElem?_set_cases {α : Type} {l : List α} {p q : Nat} {v w : α}
    (h : (l.set p v)[q]? = some w) :
    (q = p ∧ w = v) ∨ (q ≠ p ∧ l[q]? = some w) := by
  by_cases hqp : q = p
  · subst hqp
    left
    rw [List.getElem?_set_self'] at h
    refine ⟨rfl, ?_⟩
    cases hl : l[q]? with
    | none => rw [hl] at h; simp at h
    | some a => rw [hl] at h; simp at h; exact h.symm
  · right
    rw [List.getElem?_set_ne (fun he => hqp he.symm)] at h
    exact ⟨hqp, h⟩

theorem lockFree_not_locked {s : Sys} {rid : String} (hfree : lockFree s rid = true)
    {q : Nat} {now : Int} (h : s.procs[q]? = some (ProcState.locked rid now)) : False := by
  have hmem : ProcState.locked rid now ∈ s.procs := List.getElem?_mem h
  have hall := List.all_eq_true.mp hfree _ hmem
  simp [holdsLock] at hall

theorem popUpdate_map_id (rows : List Row) (rid : String) (n : Int) :
    (popUpdate rows rid n).map Row.id = rows.map Row.id := by
  rw [popUpdate, List.map_map]
  apply List.map_congr_left
  intro x _
  by_cases hid : x.id = rid <;> simp [hid]

/-- Updating a process slot to a value that is neither `locked` nor `got`
preserves the invariant when the rows are unchanged. -/
theorem Inv_set_inert {s : Sys} (hI : Inv s) (p : Nat) (v : ProcState)
    (hv1 : ∀ rid now, v ≠ ProcState.locked rid now)
    (hv2 : ∀ r, v ≠ ProcState.got r) :
    Inv { s with procs := s.procs.set p v } := by
  constructor
  · exact hI.nodup
  · intro q rid now h
    rcases getElem?_set_cases h with ⟨_, hw⟩ | ⟨_, hold⟩
    · exact absurd hw.symm (hv1 rid now)
    · exact hI.locked_ready q rid now hold
  · intro a b rid rid2 n1 n2 hab h1 h2
    rcases getElem?_set_cases h1 with ⟨_, hw1⟩ | ⟨_, hold1⟩
    · exact absurd hw1.symm (hv1 rid n1)
    · rcases getElem?_set_cases h2 with ⟨_, hw2⟩ | ⟨_, hold2⟩
      · exact absurd hw2.symm (hv1 rid2 n2)
      · exact hI.locked_excl a b rid rid2 n1 n2 hab hold1 hold2
  · intro q r h
    rcases getElem?_set_cases h with ⟨_, hw⟩ | ⟨_, hold⟩
    · exact absurd hw.symm (hv2 r)
    · exact hI.got_done q r hold
  · intro a b r r2 hab h1 h2
    rcases getElem?_set_cases h1 with ⟨_, hw1⟩ | ⟨_, hold1⟩
    · exact absurd hw1.symm (hv2 r)
    · rcases getElem?_set_cases h2 with ⟨_, hw2⟩ | ⟨_, hold2⟩
      · exact absurd hw2.symm (hv2 r2)
      · exact hI.got_excl a b r r2 hab hold1 hold2

/-- Acquiring a free lock on a READY row preserves the invariant. -/
theorem Inv_set_locked {s : Sys} (hI : Inv s) (p : Nat) (rid : String) (now : Int)
    (hfree : lockFree s rid = true)
    (hrow : ∃ x ∈ s.rows, x.id = rid ∧ x.state = 0) :
    Inv { s with procs := s.procs.set p (ProcState.locked rid now) } := by
  constructor
  · exact hI.nodup
  · intro q rid2 now2 h
    rcases getElem?_set_cases h with ⟨_, hw⟩ | ⟨_, hold⟩
    · injection hw with e1 _
      exact e1 ▸ hrow
    · exact hI.locked_ready q rid2 now2 hold
  · intro a b rid1 rid2 n1 n2 hab h1 h2
    rcases getElem?_set_cases h1 with ⟨hap, hw1⟩ | ⟨hap, hold1⟩
    · rcases getElem?_set_cases h2 with ⟨hbp, hw2⟩ | ⟨hbp, hold2⟩
      · exact absurd (hap.trans hbp.symm) hab
      · injection hw1 with e1 _
        subst e1
        intro he
        exact lockFree_not_locked hfree (he ▸ hold2)
    · rcases getElem?_set_cases h2 with ⟨hbp, hw2⟩ | ⟨hbp, hold2⟩
      · injection hw2 with e1 _
        subst e1
        intro he
        exact lockFree_not_locked hfree (he ▸ hold1)
      · exact hI.locked_excl a b rid1 rid2 n1 n2 hab hold1 hold2
  · intro q r h
    rcases getElem?_set_cases h with ⟨_, hw⟩ | ⟨_, hold⟩
    · exact absurd hw (by simp)
    · exact hI.got_done q r hold
  · intro a b r r2 hab h1 h2
    rcases getElem?_set_cases h1 with ⟨_, hw1⟩ | ⟨_, hold1⟩
    · exact absurd hw1 (by simp)
    · rcases getElem?_set_cases h2 with ⟨_, hw2⟩ | ⟨_, hold2⟩
      · exact absurd hw2 (by simp)
      · exact hI.got_excl a b r r2 hab hold1 hold2

theorem Inv_step {s s2 : Sys} (hI : Inv s) (hstep : Step s s2) : Inv s2 := by
  cases hstep with
  | selectNone p t now hproc hsel =>
    exact Inv_set_inert hI p ProcState.noMsg (by intro rid n he; cases he)
      (by intro r he; cases he)
  | selectLock p t now r hproc hsel hfree =>
    obtain ⟨hmem, _, hs0⟩ := popSelect_mem hsel
    exact Inv_set_locked hI p r.id now hfree ⟨r, hmem, rfl, hs0⟩
  | selectBlock p t now r hproc hsel hfree =>
    exact Inv_set_inert hI p (ProcState.blocked r.id now)
      (by intro rid n he; cases he) (by intro x he; cases he)
  | wakeLock p rid now r hproc hfree hfind hs0 =>
    have hmem : r ∈ s.rows := List.mem_of_find?_eq_some hfind
    have hid : r.id = rid := by simpa using List.find?_some hfind
    exact Inv_set_locked hI p rid now hfree ⟨r, hmem, hid, hs0⟩
  | wakeFail p rid now r hproc hfree hfind hs0 =>
    exact Inv_set_inert hI p ProcState.noMsg (by intro rid2 n he; cases he)
      (by intro x he; cases he)
  | commit p rid now r hproc hfind =>
    have hrmem : r ∈ s.rows := List.mem_of_find?_eq_some hfind
    have hrid : r.id = rid := by simpa using List.find?_some hfind
    have hr0 : r.state = 0 := by
      obtain ⟨x, hx, hxid, hx0⟩ := hI.locked_ready p rid now hproc
      have hxr : x = r := List.inj_on_of_nodup_map hI.nodup hx hrmem (hxid.trans hrid.symm)
      exact hxr ▸ hx0
    constructor
    · rw [popUpdate_map_id]
      exact hI.nodup
    · intro q rid2 now2 h
      rcases getElem?_set_cases h with ⟨_, hw⟩ | ⟨hqp, hold⟩
      · exact absurd hw (by simp)
      · obtain ⟨x, hx, hxid, hx0⟩ := hI.locked_ready q rid2 now2 hold
        have hne : rid2 ≠ rid := hI.locked_excl q p rid2 rid now2 now hqp hold hproc
        refine ⟨x, ?_, hxid, hx0⟩
        have : (if x.id = rid then
            { x with state := 1, state_time := now + leaseSeconds } else x) ∈
            popUpdate s.rows rid now := List.mem_map_of_mem _ hx
        rwa [if_neg (by rw [hxid]; exact hne)] at this
    · intro a b rid1 rid2 n1 n2 hab h1 h2
      rcases getElem?_set_cases h1 with ⟨_, hw1⟩ | ⟨_, hold1⟩
      · exact absurd hw1 (by simp)
      · rcases getElem?_set_cases h2 with ⟨_, hw2⟩ | ⟨_, hold2⟩
        · exact absurd hw2 (by simp)
        · exact hI.locked_excl a b rid1 rid2 n1 n2 hab hold1 hold2
    · intro q r2 h
      rcases getElem?_set_cases h with ⟨_, hw⟩ | ⟨hqp, hold⟩
      · injection hw with e1
        refine ⟨{ r with state := 1, state_time := now + leaseSeconds },
          ?_, by rw [← e1], by simp⟩
        have : (if r.id = rid then
            { r with state := 1, state_time := now + leaseSeconds } else r) ∈
            popUpdate s.rows rid now := List.mem_map_of_mem _ hrmem
        rwa [if_pos hrid] at this
      · obtain ⟨x, hx, hxid, hxs⟩ := hI.got_done q r2 hold
        by_cases hxr : x.id = rid
        · refine ⟨{ x with state := 1, state_time := now + leaseSeconds },
            ?_, hxid, by simp⟩
          have : (if x.id = rid then
              { x with state := 1, state_time := now + leaseSeconds } else x) ∈
              popUpdate s.rows rid now := List.mem_map_of_mem _ hx
          rwa [if_pos hxr] at this
        · refine ⟨x, ?_, hxid, hxs⟩
          have : (if x.id = rid then
              { x with state := 1, state_time := now + leaseSeconds } else x) ∈
              popUpdate s.rows rid now := List.mem_map_of_mem _ hx
          rwa [if_neg hxr] at this
    · intro a b r1 r2 hab h1 h2
      rcases getElem?_set_cases h1 with ⟨hap, hw1⟩ | ⟨hap, hold1⟩
      · rcases getElem?_set_cases h2 with ⟨hbp, hw2⟩ | ⟨hbp, hold2⟩
        · exact absurd (hap.trans hbp.symm) hab
        · injection hw1 with e1
          obtain ⟨x, hx, hxid, hxs⟩ := hI.got_done b r2 hold2
          intro he
          have hxide : x.id = r.id := by
            rw [hxid, ← he, e1]
          have hxr : x = r := List.inj_on_of_nodup_map hI.nodup hx hrmem hxide
          exact hxs (hxr ▸ hr0)
      · rcases getElem?_set_cases h2 with ⟨hbp, hw2⟩ | ⟨hbp, hold2⟩
        · injection hw2 with e1
          obtain ⟨x, hx, hxid, hxs⟩ := hI.got_done a r1 hold1
          intro he
          have hxide : x.id = r.id := by
            rw [hxid, he, e1]
          have hxr : x = r := List.inj_on_of_nodup_map hI.nodup hx hrmem hxide
          exact hxs (hxr ▸ hr0)
        · exact hI.got_excl a b r1 r2 hab hold1 hold2

theorem Inv_init {s : Sys} (h : InitOk s) : Inv s := by
  constructor
  · exact h.1
  · intro p rid now hp
    obtain ⟨t, n, he⟩ := h.2 _ (List.getElem?_mem hp)
    cases he
  · intro a b rid rid2 n1 n2 hab h1 h2
    obtain ⟨t, n, he⟩ := h.2 _ (List.getElem?_mem h1)
    cases he
  · intro p r hp
    obtain ⟨t, n, he⟩ := h.2 _ (List.getElem?_mem hp)
    cases he
  · intro a b r r2 hab h1 h2
    obtain ⟨t, n, he⟩ := h.2 _ (List.getElem?_mem h1)
    cases he

theorem Inv_reachable {init s : Sys} (hinit : InitOk init)
    (hreach : Relation.ReflTransGen Step init s) : Inv s := by
  induction hreach with
  | refl => exact Inv_init hinit
  | tail _ hbc ih => exact Inv_step ih hbc

/-- C1: over any interleaving of any number of concurrent Pop transactions
against one table — each transaction modelled at the granularity of the
PostgreSQL locking protocol of sqlPopMessage (locking subselect, blocking
on a held FOR UPDATE lock, re-check of the locked row on wake, atomic
update-and-commit) — two distinct processes that both finished with a
message never return rows with the same identifier. Since the model's only
writers are the Pop transactions themselves (each flips its row READY →
PENDING and nothing un-pends a row), this is exactly: no message is
returned to two concurrent claims while it is PENDING. -/
theorem pop_exclusive_over_interleavings (init s : Sys) (p q : Nat) (r r2 : Row)
    (hinit : InitOk init) (hreach : Relation.ReflTransGen Step init s)
    (hpq : p ≠ q)
    (hp : s.procs[p]? = some (ProcState.got r))
    (hq : s.procs[q]? = some (ProcState.got r2)) :
    r.id ≠ r2.id :=
  (Inv_reachable hinit hreach).got_excl p q r r2 hpq hp hq

/-- Concrete two-process race for the C1 witness: rows before the race. -/
def raceRowA : Row := { id := "a", topic := "t", state := 0, state_time := 1, payload := [] }

/-- Second row of the race setup. -/
def raceRowB : Row := { id := "b", topic := "t", state := 0, state_time := 2, payload := [] }

/-- Row `a` after being claimed at time 0. -/
def raceRowA1 : Row := { raceRowA with state := 1, state_time := 300 }

/-- Row `b` after being claimed at time 0. -/
def raceRowB1 : Row := { raceRowB with state := 1, state_time := 300 }

/-- Initial state: both processes about to pop topic `t`. -/
def raceSys0 : Sys :=
  { rows := [raceRowA, raceRowB], procs := [ProcState.start "t" 0, ProcState.start "t" 0] }

/-- After process 0 locks row `a`. -/
def raceSys1 : Sys :=
  { raceSys0 with procs := [ProcState.locked "a" 0, ProcState.start "t" 0] }

/-- After process 0 commits. -/
def raceSys2 : Sys :=
  { rows := [raceRowA1, raceRowB], procs := [ProcState.got raceRowA1, ProcState.start "t" 0] }

/-- After process 1 locks row `b`. -/
def raceSys3 : Sys :=
  { raceSys2 with procs := [ProcState.got raceRowA1, ProcState.locked "b" 0] }

/-- After process 1 commits. -/
def raceSys4 : Sys :=
  { rows := [raceRowA1, raceRowB1],
    procs := [ProcState.got raceRowA1, ProcState.got raceRowB1] }

/-- Witness for the C1 theorem on a concrete two-process interleaving. -/
theorem pop_exclusive_witness : raceRowA1.id ≠ raceRowB1.id := by
  have h1 : Step raceSys0 raceSys1 :=
    Step.selectLock raceSys0 0 "t" 0 raceRowA (by decide) (by decide) (by decide)
  have h2 : Step raceSys1 raceSys2 :=
    Step.commit raceSys1 0 "a" 0 raceRowA (by decide) (by decide)
  have h3 : Step raceSys2 raceSys3 :=
    Step.selectLock raceSys2 1 "t" 0 raceRowB (by decide) (by decide) (by decide)
  have h4 : Step raceSys3 raceSys4 :=
    Step.commit raceSys3 1 "b" 0 raceRowB (by decide) (by decide)
  have hinit : InitOk raceSys0 := by
    refine ⟨by decide, ?_⟩
    intro x hx
    simp [raceSys0] at hx
    exact ⟨"t", 0, hx⟩
  exact pop_exclusive_over_interleavings raceSys0 raceSys4 0 1 raceRowA1 raceRowB1
    hinit
    (Relation.ReflTransGen.tail (Relation.ReflTransGen.tail (Relation.ReflTransGen.tail
      (Relation.ReflTransGen.tail Relation.ReflTransGen.refl h1) h2) h3) h4)
    (by decide) (by decide) (by decide)

end Pushpop
